import Mathlib

/-!
Shallow embedding of the keyserver rotation orchestrator
(github.com/adammmmm/keyserver-go, `main.go` together with the embedded
`keychain.tmpl`), with theorems about its status aggregation, key
generation, template rendering, and two-phase apply/rollback logic.

Device I/O (SSH sessions, NETCONF commands) is modelled by oracles:
functions from a router address to the reply the external client would
return for that call.  A reply of `none` stands for a nil Go error,
`some msg` for a non-nil error whose `Error()` string is `msg`.
The system clock and the entropy source are likewise passed in as
parameters.
-/

set_option autoImplicit false

namespace Keyserver

/-- Embeds `Config` (main.go:41-48): credentials, rotation interval in
hours, keychain name, NTP-mandatory flag, and the ordered device list. -/
structure Config where
  user : String
  key : String
  interval : Int
  keychain : String
  ntp : Bool
  devices : List String
  deriving DecidableEq, Repr

/-- Embeds `Template` (main.go:56-60): the three parallel sequences of
key-names (CKN), secrets (CAK) and activation timestamps (ROLL). -/
structure Template where
  CKN : List String
  CAK : List String
  ROLL : List String
  deriving DecidableEq, Repr

/-- Embeds `KeyServer` (main.go:50-54).  `UsedKey` is a Go `int`,
modelled as `Int`. -/
structure KeyServer where
  UsedKey : Int
  config : Config
  template : Template
  deriving DecidableEq, Repr

/-- Embeds `NewKeyServer` (main.go:62-71): zero `UsedKey`, empty
template sequences. -/
def NewKeyServer (config : Config) : KeyServer :=
  { UsedKey := 0
    config := config
    template := { CAK := [], CKN := [], ROLL := [] } }

/-! ### The embedded template `keychain.tmpl`

Each of the template's three `range` blocks walks one `Template`
sequence with its integer index and emits one `set` line per entry.
The key number of the line for index `x` is `inc x` (that is `x + 1`,
via the `inc` function of the `template.FuncMap`, main.go:133-135) when
`ge x usedkey`, and `x` itself otherwise.  The blank separator lines the
template also emits are discarded by the loop's
`len(strings.TrimSpace(line)) > 0` filter (main.go:151-155), so the
command list is exactly the non-blank `set` lines, in template order. -/

/-- Embeds the `inc` template function (main.go:134). -/
def inc (i : Int) : Int := i + 1

/-- The key-slot number `keychain.tmpl` emits for ring position `x`
against the active slot `usedkey`: `inc x` when `ge x usedkey`, else
`x`. -/
def tmplSlot (usedkey x : Int) : Int :=
  if x ≥ usedkey then inc x else x

/-- One rendered statement of `keychain.tmpl`:
`set security authentication-key-chains key-chain <name> key <slot> <attr> <value>`. -/
def tmplLine (keyname : String) (slot : Int) (attr : String) (v : String) : String :=
  "set security authentication-key-chains key-chain " ++ keyname ++ " key "
    ++ toString slot ++ " " ++ attr ++ " " ++ v

/-- One `range` block of `keychain.tmpl`: one statement per sequence
entry, in index order, with the key number given by `tmplSlot`.
(`List.enum` supplies the Go `range` index.) -/
def renderPass (keyname : String) (usedkey : Int) (attr : String)
    (vals : List String) : List String :=
  vals.enum.map (fun p => tmplLine keyname (tmplSlot usedkey (p.1 : Int)) attr p.2)

/-- The key-slot numbers touched by one `range` block of the template
over the sequence `vals`, in emission order. -/
def passSlots (usedkey : Int) (vals : List String) : List Int :=
  vals.enum.map (fun p => tmplSlot usedkey (p.1 : Int))

/-- The full rendered command list of one cycle (main.go:132-155):
the CAK `secret` block, then the CKN `key-name` block, then the ROLL
`start-time` block, non-blank lines only. -/
def renderCommands (s : KeyServer) : List String :=
  renderPass s.config.keychain s.UsedKey "secret" s.template.CAK
    ++ renderPass s.config.keychain s.UsedKey "key-name" s.template.CKN
    ++ renderPass s.config.keychain s.UsedKey "start-time" s.template.ROLL

theorem passSlots_eq_range_map (usedkey : Int) (vals : List String) :
    passSlots usedkey vals
      = (List.range vals.length).map (fun i : Nat => tmplSlot usedkey (i : Int)) := by
  unfold passSlots
  rw [List.enum_eq_zip_range]
  have hlen : (List.range vals.length).length ≤ vals.length := by
    simp
  have hfun : (fun p : Nat × String => tmplSlot usedkey (p.1 : Int))
      = (fun i : Nat => tmplSlot usedkey (i : Int)) ∘ Prod.fst := rfl
  rw [hfun, ← List.map_map, List.map_fst_zip _ _ hlen]

theorem tmplSlot_inj (a : Int) : Function.Injective (tmplSlot a) := by
  intro x y h
  unfold tmplSlot inc at h
  split_ifs at h <;> omega

/-- C1: for every active slot in 0..31 and every ring of exactly 31
entries, one template pass touches each of the 31 key slots other than
the active slot exactly once (the slot list is duplicate-free and a
slot is touched iff it lies in 0..31 and differs from the active slot),
via the mapping sending ring position `i` to slot `i` when
`i < activeSlot` and to slot `i + 1` when `i ≥ activeSlot`; no
statement is ever emitted for the active slot. -/
theorem tmplSlot_maps_ring_bijectively (a s : Int) (vals : List String)
    (h0 : 0 ≤ a) (h31 : a ≤ 31) (hlen : vals.length = 31) :
    (passSlots a vals).Nodup
      ∧ (s ∈ passSlots a vals ↔ 0 ≤ s ∧ s ≤ 31 ∧ s ≠ a)
      ∧ (∀ i : Nat, i < vals.length →
          tmplSlot a (i : Int) = if (i : Int) < a then (i : Int) else (i : Int) + 1) := by
  rw [passSlots_eq_range_map, hlen]
  refine ⟨?_, ?_, ?_⟩
  · exact List.Nodup.map
      (fun i j h => Nat.cast_injective (tmplSlot_inj a h)) (List.nodup_range 31)
  · constructor
    · intro hs
      rcases List.mem_map.mp hs with ⟨i, hi, hie⟩
      have hi31 : i < 31 := List.mem_range.mp hi
      rw [← hie]
      simp only [tmplSlot, inc]
      split_ifs <;> omega
    · rintro ⟨hs0, hs31, hsne⟩
      rcases lt_or_le s a with hlt | hge
      · refine List.mem_map.mpr ⟨s.toNat, List.mem_range.mpr (by omega), ?_⟩
        simp only [tmplSlot, inc]
        split_ifs <;> omega
      · refine List.mem_map.mpr ⟨(s - 1).toNat, List.mem_range.mpr (by omega), ?_⟩
        simp only [tmplSlot, inc]
        split_ifs <;> omega
  · intro i _
    simp only [tmplSlot, inc]
    split_ifs <;> omega

theorem tmplSlot_maps_ring_bijectively_witness :
    (passSlots 0 (List.replicate 31 "k")).Nodup
      ∧ ((5 : Int) ∈ passSlots 0 (List.replicate 31 "k")
          ↔ 0 ≤ (5 : Int) ∧ (5 : Int) ≤ 31 ∧ (5 : Int) ≠ 0)
      ∧ (∀ i : Nat, i < (List.replicate 31 "k").length →
          tmplSlot 0 (i : Int) = if (i : Int) < 0 then (i : Int) else (i : Int) + 1) :=
  tmplSlot_maps_ring_bijectively 0 5 (List.replicate 31 "k")
    (by decide) (by decide) (by decide)

/-- Sample fixed input used by witnesses. -/
def sampleConfig : Config :=
  { user := "u", key := "k", interval := 24, keychain := "kc",
    ntp := false, devices := ["r1", "r2"] }

/-- Sample server state used by witnesses. -/
def sampleServer : KeyServer :=
  { UsedKey := 3, config := sampleConfig,
    template := { CKN := ["n0"], CAK := ["s0"], ROLL := ["t0"] } }

/-- C8: rendering is deterministic and idempotent — the command list is
a pure function of the ring (`Template` contents), the active slot
(`UsedKey`) and the keychain name, so rendering the same ring against
the same active slot twice yields byte-identical command lists (the
loop uses fresh local buffers each cycle, main.go:102-104). -/
theorem renderCommands_deterministic (s₁ s₂ : KeyServer)
    (hT : s₁.template = s₂.template) (hU : s₁.UsedKey = s₂.UsedKey)
    (hK : s₁.config.keychain = s₂.config.keychain) :
    renderCommands s₁ = renderCommands s₂ := by
  unfold renderCommands
  rw [hT, hU, hK]

theorem renderCommands_deterministic_witness :
    renderCommands sampleServer = renderCommands sampleServer :=
  renderCommands_deterministic sampleServer sampleServer rfl rfl rfl

/-! ### Key generation (`KeyServer.Generate`, main.go:73-91)

The entropy source is an oracle `rng : Nat → Except String String`:
draw `2*i` yields the hex encoding of iteration `i`'s CAK bytes, draw
`2*i + 1` the CKN hex encoding; `Except.error` models a failing
`rand.Read`, which returns immediately, leaving the appends of earlier
iterations in place.  The clock is the parameter `now` (nanoseconds,
like Go's monotonic instant); the code re-reads `time.Now()` each
iteration, modelled here as a single instant per `Generate` call. -/

/-- Nanoseconds in Go's `time.Hour`. -/
def nsPerHour : Int := 3600 * 1000000000

/-- Two's-complement wrap-around of Go's `int64` arithmetic:
9223372036854775808 = 2^63 and 18446744073709551616 = 2^64. -/
def wrap64 (x : Int) : Int :=
  (x + 9223372036854775808) % 18446744073709551616 - 9223372036854775808

/-- The activation instant of ring entry `i`:
`initial := time.Now().Add(time.Hour * interval)` then
`next := initial.Add((time.Hour * i) * interval)` (main.go:86-87).
`time.Duration` is `int64` nanoseconds and its multiplications wrap,
so each Duration product is taken through `wrap64`; the two
`time.Time.Add` calls are exact additions (`time.Time`'s range, int64
seconds, far exceeds any Duration). -/
def rollTimeNs (now interval : Int) (i : Nat) : Int :=
  (now + wrap64 (nsPerHour * interval))
    + wrap64 (wrap64 (nsPerHour * (i : Int)) * interval)

theorem wrap64_eq_self (x : Int) (h1 : -9223372036854775808 ≤ x)
    (h2 : x < 9223372036854775808) : wrap64 x = x := by
  unfold wrap64
  omega

/-- The code formats the instant with layout `2006-01-02.15:04:05`
(main.go:88); the model renders the instant by its nanosecond count,
keeping the map from instants to ROLL strings injective. -/
def timeFormat (t : Int) : String := toString t

/-- The `for i := 0; i < 31; i++` body of `Generate` (main.go:74-89),
iterated over the remaining indices: append a CAK draw, a CKN draw and
the formatted activation instant, or stop at the first entropy error. -/
def GenerateLoop (rng : Nat → Except String String) (now interval : Int) :
    List Nat → Template → Template × Option String
  | [], t => (t, none)
  | i :: rest, t =>
    match rng (2 * i) with
    | .error e => (t, some e)
    | .ok cak =>
      let t1 : Template := { t with CAK := t.CAK ++ [cak] }
      match rng (2 * i + 1) with
      | .error e => (t1, some e)
      | .ok ckn =>
        let t2 : Template := { t1 with CKN := t1.CKN ++ [ckn] }
        let t3 : Template :=
          { t2 with ROLL := t2.ROLL ++ [timeFormat (rollTimeNs now interval i)] }
        GenerateLoop rng now interval rest t3

/-- Embeds `KeyServer.Generate` (main.go:73-91): 31 iterations,
appending to the server's template in place. -/
def Generate (rng : Nat → Except String String) (now : Int) (s : KeyServer) :
    KeyServer × Option String :=
  let r := GenerateLoop rng now s.config.interval (List.range 31) s.template
  ({ s with template := r.1 }, r.2)

theorem GenerateLoop_ok (rng : Nat → Except String String) (v : Nat → String)
    (now interval : Int) (hv : ∀ i, rng i = Except.ok (v i)) :
    ∀ (idxs : List Nat) (t : Template),
      GenerateLoop rng now interval idxs t
        = ({ CKN := t.CKN ++ idxs.map (fun i => v (2 * i + 1)),
             CAK := t.CAK ++ idxs.map (fun i => v (2 * i)),
             ROLL := t.ROLL
               ++ idxs.map (fun i => timeFormat (rollTimeNs now interval i)) },
           none) := by
  intro idxs
  induction idxs with
  | nil => intro t; simp [GenerateLoop]
  | cons i rest ih =>
    intro t
    simp only [GenerateLoop, hv]
    rw [ih]
    simp

theorem Generate_ok (rng : Nat → Except String String) (v : Nat → String)
    (now : Int) (hv : ∀ i, rng i = Except.ok (v i)) (s : KeyServer) :
    (Generate rng now s).1.template
        = { CKN := s.template.CKN ++ (List.range 31).map (fun i => v (2 * i + 1)),
            CAK := s.template.CAK ++ (List.range 31).map (fun i => v (2 * i)),
            ROLL := s.template.ROLL ++ (List.range 31).map
              (fun i => timeFormat (rollTimeNs now s.config.interval i)) }
      ∧ (Generate rng now s).2 = none
      ∧ (Generate rng now s).1.config = s.config
      ∧ (Generate rng now s).1.UsedKey = s.UsedKey := by
  unfold Generate
  rw [GenerateLoop_ok rng v now s.config.interval hv]
  exact ⟨rfl, rfl, rfl, rfl⟩

/-- A configuration whose rotation interval is 0 hours. -/
def zeroIntervalConfig : Config :=
  { user := "u", key := "k", interval := 0, keychain := "kc",
    ntp := false, devices := ["r1"] }

/-- Entropy oracle that always succeeds with the same hex string. -/
def constRng : Nat → Except String String := fun _ => Except.ok "aa"

/-- C4 counterexample: with a configured interval of 0 hours (and the
clock at 0), `Generate` succeeds and produces its 31 entries, but the
activation instants of entries 0 and 1 coincide (both equal `now`), so
the activation schedule is not strictly increasing as the claim states
unconditionally. -/
theorem generate_schedule_not_strict_at_zero_interval :
    (Generate constRng 0 (NewKeyServer zeroIntervalConfig)).2 = none
      ∧ (Generate constRng 0 (NewKeyServer zeroIntervalConfig)).1.template.ROLL.length
          = 31
      ∧ (Generate constRng 0 (NewKeyServer zeroIntervalConfig)).1.template.ROLL.get? 0
          = (Generate constRng 0 (NewKeyServer zeroIntervalConfig)).1.template.ROLL.get? 1
      ∧ ¬ rollTimeNs 0 zeroIntervalConfig.interval 0
            < rollTimeNs 0 zeroIntervalConfig.interval 1 := by
  refine ⟨rfl, rfl, rfl, by decide⟩

/-- C4 (amended): when the configured rotation interval is between 1
and 85401 hours — the range in which none of the `int64` duration
products `time.Hour * interval` and `(time.Hour * i) * interval`
(`i ≤ 30`) can overflow — `Generate` on a fresh server produces
exactly 31 entries in each sequence; entry `i`'s activation instant is
`now + intervalHours + i*intervalHours` hours, i.e. `(i+1)` intervals
from now; and the activation schedule is strictly increasing. -/
theorem generate_schedule (cfg : Config) (rng : Nat → Except String String)
    (v : Nat → String) (now : Int) (hv : ∀ i, rng i = Except.ok (v i))
    (hpos : 1 ≤ cfg.interval) (hbound : cfg.interval ≤ 85401) :
    (Generate rng now (NewKeyServer cfg)).2 = none
      ∧ (Generate rng now (NewKeyServer cfg)).1.template.CAK.length = 31
      ∧ (Generate rng now (NewKeyServer cfg)).1.template.CKN.length = 31
      ∧ (Generate rng now (NewKeyServer cfg)).1.template.ROLL.length = 31
      ∧ (Generate rng now (NewKeyServer cfg)).1.template.ROLL
          = (List.range 31).map (fun i => timeFormat (rollTimeNs now cfg.interval i))
      ∧ (∀ i : Nat, i < 31 → rollTimeNs now cfg.interval i
          = now + nsPerHour * cfg.interval * ((i : Int) + 1))
      ∧ (∀ i j : Nat, i < j → j < 31 →
          rollTimeNs now cfg.interval i < rollTimeNs now cfg.interval j) := by
  obtain ⟨ht, he, -, -⟩ := Generate_ok rng v now hv (NewKeyServer cfg)
  have hW1 : wrap64 (nsPerHour * cfg.interval) = nsPerHour * cfg.interval := by
    apply wrap64_eq_self
    · unfold nsPerHour; omega
    · unfold nsPerHour; omega
  have hW2 : ∀ i : Nat, i < 31 →
      wrap64 (wrap64 (nsPerHour * (i : Int)) * cfg.interval)
        = (nsPerHour * (i : Int)) * cfg.interval := by
    intro i hi
    have hic : (i : Int) ≤ 30 := by exact_mod_cast Nat.lt_succ_iff.mp hi
    have hic0 : (0 : Int) ≤ (i : Int) := Int.natCast_nonneg i
    have hinner : wrap64 (nsPerHour * (i : Int)) = nsPerHour * (i : Int) := by
      apply wrap64_eq_self
      · unfold nsPerHour; omega
      · unfold nsPerHour; omega
    rw [hinner]
    have hstep : (nsPerHour * (i : Int)) * cfg.interval ≤ (nsPerHour * 30) * 85401 := by
      apply mul_le_mul
      · unfold nsPerHour; omega
      · exact hbound
      · omega
      · norm_num [nsPerHour]
    have h0 : (0 : Int) ≤ (nsPerHour * (i : Int)) * cfg.interval := by
      apply mul_nonneg
      · exact mul_nonneg (by norm_num [nsPerHour]) hic0
      · omega
    apply wrap64_eq_self
    · omega
    · calc (nsPerHour * (i : Int)) * cfg.interval
          ≤ (nsPerHour * 30) * 85401 := hstep
      _ < 9223372036854775808 := by norm_num [nsPerHour]
  have hform : ∀ i : Nat, i < 31 → rollTimeNs now cfg.interval i
      = now + nsPerHour * cfg.interval * ((i : Int) + 1) := by
    intro i hi
    unfold rollTimeNs
    rw [hW1, hW2 i hi]
    ring
  refine ⟨he, ?_, ?_, ?_, ?_, hform, ?_⟩
  · rw [ht]; simp [NewKeyServer]
  · rw [ht]; simp [NewKeyServer]
  · rw [ht]; simp [NewKeyServer]
  · rw [ht]; simp [NewKeyServer]
  · intro i j hij hj31
    rw [hform i (Nat.lt_trans hij hj31), hform j hj31]
    have hns : (0 : Int) < nsPerHour * cfg.interval := by
      have h1 : (0 : Int) < nsPerHour := by unfold nsPerHour; norm_num
      exact mul_pos h1 (by omega)
    have hcast : ((i : Int) + 1) < ((j : Int) + 1) := by
      exact_mod_cast Nat.succ_lt_succ hij
    have := mul_lt_mul_of_pos_left hcast hns
    omega

theorem generate_schedule_witness :
    (Generate constRng 0 (NewKeyServer sampleConfig)).2 = none
      ∧ (Generate constRng 0 (NewKeyServer sampleConfig)).1.template.CAK.length = 31
      ∧ (Generate constRng 0 (NewKeyServer sampleConfig)).1.template.CKN.length = 31
      ∧ (Generate constRng 0 (NewKeyServer sampleConfig)).1.template.ROLL.length = 31
      ∧ (Generate constRng 0 (NewKeyServer sampleConfig)).1.template.ROLL
          = (List.range 31).map
              (fun i => timeFormat (rollTimeNs 0 sampleConfig.interval i))
      ∧ (∀ i : Nat, i < 31 → rollTimeNs 0 sampleConfig.interval i
          = 0 + nsPerHour * sampleConfig.interval * ((i : Int) + 1))
      ∧ (∀ i j : Nat, i < j → j < 31 →
          rollTimeNs 0 sampleConfig.interval i < rollTimeNs 0 sampleConfig.interval j) :=
  generate_schedule sampleConfig constRng (fun _ => "aa") 0 (fun _ => rfl)
    (by decide) (by decide)

theorem renderPass_length (keyname : String) (usedkey : Int) (attr : String)
    (vals : List String) :
    (renderPass keyname usedkey attr vals).length = vals.length := by
  simp [renderPass]

/-- The rotation-performing cycles of `Run` (main.go:93-100): `Run`
calls `loop` on the same `KeyServer` value forever, and each cycle that
decides a rotation is due calls `s.Generate()` on that shared value
(main.go:126); `rngs c` and `nows c` are the entropy source and clock
of the `c`-th such cycle. -/
def iterCycles (rngs : Nat → Nat → Except String String) (nows : Nat → Int)
    (s : KeyServer) : Nat → KeyServer
  | 0 => s
  | n + 1 => (Generate (rngs n) (nows n) (iterCycles rngs nows s n)).1

/-- C5: `Generate` appends its 31 new entries to each sequence without
clearing the existing contents, and the server persists across cycles,
so after the `n`-th generation-performing cycle each sequence has
length `31 * n`, and rendering emits one command per accumulated entry
(`3 * (31 * n)` commands), not only for the newest 31. -/
theorem iterCycles_accumulates (cfg : Config)
    (rngs : Nat → Nat → Except String String) (vs : Nat → Nat → String)
    (nows : Nat → Int) (hv : ∀ c i, rngs c i = Except.ok (vs c i)) (n : Nat) :
    (iterCycles rngs nows (NewKeyServer cfg) n).template.CAK.length = 31 * n
      ∧ (iterCycles rngs nows (NewKeyServer cfg) n).template.CKN.length = 31 * n
      ∧ (iterCycles rngs nows (NewKeyServer cfg) n).template.ROLL.length = 31 * n
      ∧ (renderCommands (iterCycles rngs nows (NewKeyServer cfg) n)).length
          = 3 * (31 * n) := by
  induction n with
  | zero =>
    simp [iterCycles, NewKeyServer, renderCommands, renderPass]
  | succ m ih =>
    obtain ⟨h1, h2, h3, -⟩ := ih
    have hstep : iterCycles rngs nows (NewKeyServer cfg) (m + 1)
        = (Generate (rngs m) (nows m) (iterCycles rngs nows (NewKeyServer cfg) m)).1 :=
      rfl
    obtain ⟨ht, -, -, -⟩ :=
      Generate_ok (rngs m) (vs m) (nows m) (hv m)
        (iterCycles rngs nows (NewKeyServer cfg) m)
    rw [hstep]
    unfold renderCommands
    simp only [List.length_append, renderPass_length]
    rw [ht]
    simp only [List.length_append, List.length_map, List.length_range]
    omega

theorem iterCycles_accumulates_witness :
    (iterCycles (fun _ => constRng) (fun _ => 0) (NewKeyServer sampleConfig) 2).template.CAK.length
        = 31 * 2
      ∧ (iterCycles (fun _ => constRng) (fun _ => 0) (NewKeyServer sampleConfig) 2).template.CKN.length
          = 31 * 2
      ∧ (iterCycles (fun _ => constRng) (fun _ => 0) (NewKeyServer sampleConfig) 2).template.ROLL.length
          = 31 * 2
      ∧ (renderCommands (iterCycles (fun _ => constRng) (fun _ => 0) (NewKeyServer sampleConfig) 2)).length
          = 3 * (31 * 2) :=
  iterCycles_accumulates sampleConfig (fun _ => constRng) (fun _ _ => "aa")
    (fun _ => 0) (fun _ _ => rfl) 2

/-! ### Status aggregation (`getKeychainStatus`, main.go:223-320) -/

/-- One device's contribution to a status read.  `fail e` covers every
per-device early exit of `getKeychainStatus` (connect failure, NTP
precondition, command error, parse error, missing element,
send/receive mismatch, `Atoi` failure); `state slot ready` is the
fall-through that appends `slot` to `ActiveIDs` and, when `ready`
(next-send, next-receive and next-key-time all `None`), the router to
`readyForKeys` (main.go:232-305). -/
inductive DeviceReply where
  | fail (e : String)
  | state (slot : Int) (ready : Bool)
  deriving DecidableEq, Repr

/-- The per-router loop of `getKeychainStatus` with its two
accumulators `(ActiveIDs, readyForKeys)` (main.go:232-305). -/
def statusLoop (query : String → DeviceReply) :
    List String → List Int × List String → Except String (List Int × List String)
  | [], acc => .ok acc
  | r :: rest, acc =>
    match query r with
    | .fail e => .error e
    | .state slot ready =>
      statusLoop query rest
        (acc.1 ++ [slot], if ready then acc.2 ++ [r] else acc.2)

/-- Embeds `checkIfSame` (main.go:210-221). -/
def checkIfSame (ActiveIDs : List Int) : Bool :=
  if ActiveIDs.length ≤ 1 then true
  else
    match ActiveIDs with
    | [] => true
    | firstID :: rest => (firstID :: rest).all (fun id => id == firstID)

/-- Embeds `getKeychainStatus` (main.go:223-320): iterate over the
devices, require all active IDs pairwise equal, then decide the
verdict from `readyForKeys`.  `.ok (needsRotation, ActiveIDs)` models
the nil-error return. -/
def getKeychainStatus (query : String → DeviceReply) (config : Config) :
    Except String (Bool × List Int) :=
  match statusLoop query config.devices ([], []) with
  | .error e => .error e
  | .ok (activeIDs, readyForKeys) =>
    if ¬ checkIfSame activeIDs then
      .error "keychains unsynchronized across devices"
    else if readyForKeys.length > 0 then
      if config.devices.length ≠ readyForKeys.length then
        .error "not all devices ready for new keys"
      else
        .ok (true, activeIDs)
    else
      .ok (false, activeIDs)

theorem checkIfSame_iff (l : List Int) :
    checkIfSame l = true ↔ ∀ x ∈ l, ∀ y ∈ l, x = y := by
  unfold checkIfSame
  split
  · rename_i hlen
    simp only [true_iff]
    match l, hlen with
    | [], _ => simp
    | [a], _ => simp
  · rename_i hlen
    match l, hlen with
    | a :: rest, _ =>
      simp only [List.all_eq_true, beq_iff_eq]
      constructor
      · intro h x hx y hy
        rw [h x hx, h y hy]
      · intro h x hx
        exact h x hx a (by simp)

theorem statusLoop_states (query : String → DeviceReply) (slot : String → Int)
    (f : String → Bool) :
    ∀ (l : List String) (acc : List Int × List String),
      (∀ r ∈ l, query r = .state (slot r) (f r)) →
      statusLoop query l acc = .ok (acc.1 ++ l.map slot, acc.2 ++ l.filter f) := by
  intro l
  induction l with
  | nil => intro acc _; simp [statusLoop]
  | cons r rest ih =>
    intro acc h
    have hr := h r (by simp)
    simp only [statusLoop, hr]
    rw [ih _ (fun x hx => h x (by simp [hx]))]
    by_cases hf : f r = true <;>
      simp [hf, List.filter_cons, List.append_assoc]

theorem getKeychainStatus_of_statusLoop (query : String → DeviceReply)
    (cfg : Config) (activeIDs : List Int) (readyForKeys : List String)
    (h : statusLoop query cfg.devices ([], []) = .ok (activeIDs, readyForKeys)) :
    getKeychainStatus query cfg =
      if ¬ checkIfSame activeIDs then
        .error "keychains unsynchronized across devices"
      else if readyForKeys.length > 0 then
        if cfg.devices.length ≠ readyForKeys.length then
          .error "not all devices ready for new keys"
        else .ok (true, activeIDs)
      else .ok (false, activeIDs) := by
  unfold getKeychainStatus
  rw [h]

theorem statusLoop_ok_length (query : String → DeviceReply) :
    ∀ (l : List String) (acc : List Int × List String) (ids : List Int)
      (rdy : List String),
      statusLoop query l acc = .ok (ids, rdy) →
      ids.length = acc.1.length + l.length := by
  intro l
  induction l with
  | nil =>
    intro acc ids rdy h
    simp only [statusLoop, Except.ok.injEq] at h
    subst h
    simp
  | cons r rest ih =>
    intro acc ids rdy h
    simp only [statusLoop] at h
    cases hq : query r with
    | fail e => rw [hq] at h; exact absurd h (by simp)
    | state slot ready =>
      rw [hq] at h
      have := ih _ _ _ h
      simp only [List.length_append, List.length_cons, List.length_nil] at this ⊢
      omega

/-- C3: when every device yields the same agreed active slot together
with a readiness flag (and the fleet is non-empty), the status read
returns `needsRotation = true` iff every device is ready,
`needsRotation = false` iff no device is ready, and an error — not a
verdict — whenever some but not all devices are ready. -/
theorem getKeychainStatus_verdict (query : String → DeviceReply) (cfg : Config)
    (a : Int) (f : String → Bool) (hne : cfg.devices ≠ [])
    (hq : ∀ r ∈ cfg.devices, query r = DeviceReply.state a (f r)) :
    ((∃ ids, getKeychainStatus query cfg = .ok (true, ids))
        ↔ ∀ r ∈ cfg.devices, f r = true)
      ∧ ((∃ ids, getKeychainStatus query cfg = .ok (false, ids))
          ↔ ∀ r ∈ cfg.devices, f r = false)
      ∧ ((∃ e, getKeychainStatus query cfg = .error e)
          ↔ (∃ r ∈ cfg.devices, f r = true) ∧ (∃ r ∈ cfg.devices, f r = false)) := by
  have hsl := statusLoop_states query (fun _ => a) f cfg.devices ([], []) hq
  have hsame : checkIfSame (cfg.devices.map (fun _ => a)) = true := by
    rw [checkIfSame_iff]
    intro x hx y hy
    rcases List.mem_map.mp hx with ⟨-, -, rfl⟩
    rcases List.mem_map.mp hy with ⟨-, -, rfl⟩
    rfl
  simp only [List.nil_append] at hsl
  rw [getKeychainStatus_of_statusLoop query cfg _ _ hsl]
  simp only [hsame, not_true_eq_false, ite_false, if_false]
  by_cases hall : ∀ r ∈ cfg.devices, f r = true
  · have hfilter : cfg.devices.filter f = cfg.devices := List.filter_eq_self.mpr hall
    rw [hfilter]
    have hpos : 0 < cfg.devices.length := List.length_pos.mpr hne
    simp only [hpos, if_true, ne_eq, not_true_eq_false, if_false, gt_iff_lt]
    refine ⟨?_, ?_, ?_⟩
    · exact ⟨fun _ => hall, fun _ => ⟨_, rfl⟩⟩
    · constructor
      · rintro ⟨ids, hids⟩
        simp at hids
      · intro hnone
        rcases List.exists_mem_of_ne_nil cfg.devices hne with ⟨r, hr⟩
        have := hall r hr
        have := hnone r hr
        simp_all
    · constructor
      · rintro ⟨e, he⟩
        simp at he
      · rintro ⟨-, r, hr, hfr⟩
        have := hall r hr
        simp_all
  · -- some device is not ready
    push_neg at hall
    rcases hall with ⟨r0, hr0, hfr0⟩
    have hfr0' : f r0 = false := by
      cases hfr : f r0
      · rfl
      · exact absurd hfr hfr0
    have hlt : (cfg.devices.filter f).length < cfg.devices.length :=
      List.length_filter_lt_length_iff_exists.mpr ⟨r0, hr0, by simp [hfr0']⟩
    by_cases hany : ∃ r ∈ cfg.devices, f r = true
    · -- mixed readiness: error branch
      rcases hany with ⟨r1, hr1, hfr1⟩
      have hmem : r1 ∈ cfg.devices.filter f := List.mem_filter.mpr ⟨hr1, by simp [hfr1]⟩
      have hpos : 0 < (cfg.devices.filter f).length :=
        List.length_pos.mpr (List.ne_nil_of_mem hmem)
      have hneq : cfg.devices.length ≠ (cfg.devices.filter f).length := by omega
      simp only [gt_iff_lt, hpos, if_true, hneq, ne_eq, not_false_eq_true, if_true]
      refine ⟨?_, ?_, ?_⟩
      · constructor
        · rintro ⟨ids, hids⟩
          simp at hids
        · intro h
          exact absurd (h r0 hr0) (by simp [hfr0'])
      · constructor
        · rintro ⟨ids, hids⟩
          simp at hids
        · intro h
          exact absurd (h r1 hr1) (by simp [hfr1])
      · exact ⟨fun _ => ⟨⟨r1, hr1, hfr1⟩, ⟨r0, hr0, hfr0'⟩⟩, fun _ => ⟨_, rfl⟩⟩
    · -- no device ready: needsRotation = false
      push_neg at hany
      have hfilter : cfg.devices.filter f = [] := by
        rw [List.filter_eq_nil_iff]
        intro r hr
        have := hany r hr
        simp_all
      rw [hfilter]
      simp only [List.length_nil, gt_iff_lt, lt_irrefl, if_false]
      refine ⟨?_, ?_, ?_⟩
      · constructor
        · rintro ⟨ids, hids⟩
          simp at hids
        · intro h
          exact absurd (h r0 hr0) (by simp [hfr0'])
      · exact ⟨fun _ r hr => by
          have := hany r hr
          cases hfr : f r
          · rfl
          · exact absurd hfr this, fun _ => ⟨_, rfl⟩⟩
      · constructor
        · rintro ⟨e, he⟩
          simp at he
        · rintro ⟨⟨r1, hr1, hfr1⟩, -⟩
          exact absurd hfr1 (hany r1 hr1)

theorem getKeychainStatus_verdict_witness :
    ((∃ ids, getKeychainStatus (fun _ => DeviceReply.state 5 true) sampleConfig
          = .ok (true, ids))
        ↔ ∀ r ∈ sampleConfig.devices, (fun _ : String => true) r = true)
      ∧ ((∃ ids, getKeychainStatus (fun _ => DeviceReply.state 5 true) sampleConfig
            = .ok (false, ids))
          ↔ ∀ r ∈ sampleConfig.devices, (fun _ : String => true) r = false)
      ∧ ((∃ e, getKeychainStatus (fun _ => DeviceReply.state 5 true) sampleConfig
            = .error e)
          ↔ (∃ r ∈ sampleConfig.devices, (fun _ : String => true) r = true)
              ∧ (∃ r ∈ sampleConfig.devices, (fun _ : String => true) r = false)) :=
  getKeychainStatus_verdict (fun _ => DeviceReply.state 5 true) sampleConfig 5
    (fun _ => true) (by decide) (fun r _ => rfl)

/-! ### The fleet update committer (`updateKeychain`, main.go:322-400)

Each pass opens a fresh session per router; `sessP`, `sessA`, `sessR`
give the `NewSession` outcome in the probe, apply and rollback passes,
`check`, `conf`, `roll` the outcome of `CommitCheck`, `Config` and
`Rollback(1)` on that router (`none` = nil error). -/

/-- The error string the code special-cases as a benign envelope
mismatch (main.go:339, 357, 390). -/
def benignMsg : String := "expected element type <commit-results> but have <ok>"

/-- The commit-lock probe pass (main.go:330-345): per router, open a
session and run `CommitCheck`; a benign reply continues, any other
error returns it. -/
def probePass (sessP check : String → Option String) : List String → Option String
  | [] => none
  | r :: rest =>
    match sessP r with
    | some e => some e
    | none =>
      match check r with
      | some e => if e = benignMsg then probePass sessP check rest else some e
      | none => probePass sessP check rest

/-- The apply pass (main.go:348-370), carrying the `committed`
accumulator.  Returns the error (`none` on success) and, when a
non-benign `Config` failure triggered rollback, the list handed to
`rollbackCommitted` (a `NewSession` failure returns without any
rollback, main.go:349-352). -/
def applyPass (sessA conf : String → Option String) :
    List String → List String → Option String × Option (List String)
  | _, [] => (none, none)
  | committed, r :: rest =>
    match sessA r with
    | some e => (some e, none)
    | none =>
      match conf r with
      | some e =>
        if e = benignMsg then applyPass sessA conf (committed ++ [r]) rest
        else (some e, some committed)
      | none => applyPass sessA conf (committed ++ [r]) rest

/-- Embeds `rollbackCommitted` (main.go:375-400): returns the error
(`none` = clean) and the routers on which `Rollback(1)` was invoked,
in order. -/
def rollbackCommitted (sessR roll : String → Option String) :
    List String → Option String × List String
  | [] => (none, [])
  | r :: rest =>
    match sessR r with
    | some e => (some e, [])
    | none =>
      match roll r with
      | some e =>
        if e = benignMsg then
          ((rollbackCommitted sessR roll rest).1,
           r :: (rollbackCommitted sessR roll rest).2)
        else (some e, [r])
      | none =>
        ((rollbackCommitted sessR roll rest).1,
         r :: (rollbackCommitted sessR roll rest).2)

/-- Embeds `updateKeychain` (main.go:322-373): the probe pass, then the
apply pass; a non-benign apply failure runs `rollbackCommitted` over
the committed prefix and returns the combined error when rollback also
failed (main.go:362-364), else the original error.  The second
component reports the rollback scope (`none` when rollback never ran).
`cmds` is the rendered batch; the devices' responses to it are what
the oracles model. -/
def updateKeychain (sessP check sessA conf sessR roll : String → Option String)
    (cmds : List String) (devices : List String) :
    Option String × Option (List String) :=
  match probePass sessP check devices with
  | some e => (some e, none)
  | none =>
    match applyPass sessA conf [] devices with
    | (none, _) => (none, none)
    | (some e, none) => (some e, none)
    | (some e, some committed) =>
      match rollbackCommitted sessR roll committed with
      | (some rollErr, _) =>
        (some ("config error: " ++ e ++ ", rollback error: " ++ rollErr),
         some committed)
      | (none, _) => (some e, some committed)

theorem applyPass_prefix_ok (sessA conf : String → Option String)
    (d : String) (e : String) (hne : e ≠ benignMsg)
    (hsess : sessA d = none) (hconf : conf d = some e) :
    ∀ (pre : List String) (acc post : List String),
      (∀ r ∈ pre, sessA r = none ∧ (conf r = none ∨ conf r = some benignMsg)) →
      applyPass sessA conf acc (pre ++ d :: post) = (some e, some (acc ++ pre)) := by
  intro pre
  induction pre with
  | nil =>
    intro acc post _
    simp only [List.nil_append, applyPass, hsess, hconf, hne, if_false, List.append_nil]
  | cons p pre' ih =>
    intro acc post h
    obtain ⟨hs, hc⟩ := h p (by simp)
    have hrest : ∀ r ∈ pre', sessA r = none ∧ (conf r = none ∨ conf r = some benignMsg) :=
      fun r hr => h r (by simp [hr])
    rcases hc with hc | hc
    · simp only [List.cons_append, applyPass, hs, hc, List.append_eq]
      rw [ih (acc ++ [p]) post hrest]
      simp
    · simp only [List.cons_append, applyPass, hs, hc, if_pos rfl, List.append_eq]
      rw [ih (acc ++ [p]) post hrest]
      simp

/-- C2: if the apply on device `k` (1-indexed) fails with a non-benign
error after every earlier device committed (cleanly or via the benign
reply), the rollback scope is exactly the devices committed before it —
the first `k - 1` devices, in the order they were committed.  Here the
device list is `pre ++ d :: post` with `d` the `k`-th device, so
`pre` is the first `k - 1` devices in order. -/
theorem apply_failure_rolls_back_prefix (sessA conf : String → Option String)
    (pre post : List String) (d e : String)
    (hprev : ∀ r ∈ pre, sessA r = none ∧ (conf r = none ∨ conf r = some benignMsg))
    (hsess : sessA d = none) (hconf : conf d = some e) (hne : e ≠ benignMsg) :
    applyPass sessA conf [] (pre ++ d :: post) = (some e, some pre)
      ∧ pre = (pre ++ d :: post).take pre.length := by
  refine ⟨?_, ?_⟩
  · have := applyPass_prefix_ok sessA conf d e hne hsess hconf pre [] post hprev
    simpa using this
  · rw [List.take_left']
    rfl

/-- `Config` oracle replying a non-benign error on router `c` only. -/
def failOnC : String → Option String :=
  fun r => if r = "c" then some "boom" else none

theorem apply_failure_rolls_back_prefix_witness :
    applyPass (fun _ => none) failOnC [] (["a", "b"] ++ "c" :: [])
        = (some "boom", some ["a", "b"])
      ∧ ["a", "b"] = (["a", "b"] ++ "c" :: []).take (["a", "b"] : List String).length :=
  apply_failure_rolls_back_prefix (fun _ => none) failOnC ["a", "b"] [] "c" "boom"
    (by decide) (by decide) (by decide) (by decide)

theorem probePass_append (sessP check : String → Option String) :
    ∀ (l1 l2 : List String), probePass sessP check l1 = none →
      probePass sessP check (l1 ++ l2) = probePass sessP check l2 := by
  intro l1
  induction l1 with
  | nil => intro l2 _; rfl
  | cons r rest ih =>
    intro l2 h
    cases hs : sessP r with
    | some e => simp [probePass, hs] at h
    | none =>
      cases hc : check r with
      | some e =>
        by_cases hb : e = benignMsg
        · simp only [probePass, hs, hc, List.cons_append, if_pos hb] at h ⊢
          exact ih l2 h
        · simp [probePass, hs, hc, hb] at h
      | none =>
        simp only [probePass, hs, hc, List.cons_append] at h ⊢
        exact ih l2 h

theorem rollbackCommitted_append (sessR roll : String → Option String) :
    ∀ (l1 l2 : List String), (rollbackCommitted sessR roll l1).1 = none →
      rollbackCommitted sessR roll (l1 ++ l2)
        = ((rollbackCommitted sessR roll l2).1,
           (rollbackCommitted sessR roll l1).2 ++ (rollbackCommitted sessR roll l2).2) := by
  intro l1
  induction l1 with
  | nil => intro l2 _; simp [rollbackCommitted]
  | cons r rest ih =>
    intro l2 h
    cases hs : sessR r with
    | some e => simp [rollbackCommitted, hs] at h
    | none =>
      cases hc : roll r with
      | some e =>
        by_cases hb : e = benignMsg
        · simp only [rollbackCommitted, hs, hc, List.cons_append, if_pos hb,
            List.append_eq] at h ⊢
          rw [ih l2 h]
        · simp [rollbackCommitted, hs, hc, hb] at h
      | none =>
        simp only [rollbackCommitted, hs, hc, List.cons_append, List.append_eq] at h ⊢
        rw [ih l2 h]

/-- C7: a device reply equal to the benign envelope-mismatch string is
treated as success, not failure, in all three passes and at every
position of the device in the ordered list: the probe pass continues to
the next device, the apply pass appends the device to the committed
list and continues, and the rollback pass records the device as rolled
back and continues. -/
theorem benign_reply_treated_as_success
    (sessP check sessA conf sessR roll : String → Option String) (d : String)
    (hsP : sessP d = none) (hcheck : check d = some benignMsg)
    (hsA : sessA d = none) (hconf : conf d = some benignMsg)
    (hsR : sessR d = none) (hroll : roll d = some benignMsg) :
    (∀ l1 l2, probePass sessP check l1 = none →
        probePass sessP check (l1 ++ d :: l2) = probePass sessP check l2)
      ∧ (∀ committed rest, applyPass sessA conf committed (d :: rest)
            = applyPass sessA conf (committed ++ [d]) rest)
      ∧ (∀ l1 l2, (rollbackCommitted sessR roll l1).1 = none →
          rollbackCommitted sessR roll (l1 ++ d :: l2)
            = ((rollbackCommitted sessR roll l2).1,
               (rollbackCommitted sessR roll l1).2
                 ++ d :: (rollbackCommitted sessR roll l2).2)) := by
  refine ⟨?_, ?_, ?_⟩
  · intro l1 l2 h
    rw [probePass_append sessP check l1 (d :: l2) h]
    simp [probePass, hsP, hcheck]
  · intro committed rest
    simp [applyPass, hsA, hconf]
  · intro l1 l2 h
    rw [rollbackCommitted_append sessR roll l1 (d :: l2) h]
    simp [rollbackCommitted, hsR, hroll]

/-- Oracle replying the benign envelope mismatch on router `b` only. -/
def benignOnB : String → Option String :=
  fun r => if r = "b" then some benignMsg else none

theorem benign_reply_treated_as_success_witness :
    (∀ l1 l2, probePass (fun _ => none) benignOnB l1 = none →
        probePass (fun _ => none) benignOnB (l1 ++ "b" :: l2)
          = probePass (fun _ => none) benignOnB l2)
      ∧ (∀ committed rest, applyPass (fun _ => none) benignOnB committed ("b" :: rest)
            = applyPass (fun _ => none) benignOnB (committed ++ ["b"]) rest)
      ∧ (∀ l1 l2, (rollbackCommitted (fun _ => none) benignOnB l1).1 = none →
          rollbackCommitted (fun _ => none) benignOnB (l1 ++ "b" :: l2)
            = ((rollbackCommitted (fun _ => none) benignOnB l2).1,
               (rollbackCommitted (fun _ => none) benignOnB l1).2
                 ++ "b" :: (rollbackCommitted (fun _ => none) benignOnB l2).2)) :=
  benign_reply_treated_as_success (fun _ => none) benignOnB (fun _ => none) benignOnB
    (fun _ => none) benignOnB "b" rfl (by decide) rfl (by decide) rfl (by decide)

/-! ### The rotation loop (`loop`, main.go:101-167) -/

/-- Embeds the outcome constants (main.go:26-30), as exact rationals:
`0.0`, `0.5`, `1.0`. -/
def RunError : ℚ := 0

/-- `RunWarning = 0.5` (main.go:28). -/
def RunWarning : ℚ := 1 / 2

/-- `RunSuccess = 1.0` (main.go:29). -/
def RunSuccess : ℚ := 1

/-- The external world of one cycle: the status query, the entropy
source and clock for `Generate`, and the committer's per-pass session
and command oracles. -/
structure Oracles where
  query : String → DeviceReply
  rng : Nat → Except String String
  now : Int
  sessP : String → Option String
  check : String → Option String
  sessA : String → Option String
  conf : String → Option String
  sessR : String → Option String
  roll : String → Option String

/-- Observable outcome of one `loop` call (main.go:101-167): the values
written to the `lastResult` gauge in order, the returned error, which
stages ran, the rollback scope, whether the partial-response branch
(main.go:113-117) was taken, and the server state afterwards. -/
structure LoopStep where
  gaugeWrites : List ℚ
  err : Option String
  generated : Bool
  rendered : Bool
  applied : Bool
  rollbackArg : Option (List String)
  partialResponse : Bool
  server : KeyServer

/-- Embeds `loop` (main.go:101-167).  The embedded template always
parses and executes in the model (its two Warning branches,
main.go:137-148, are unreachable: the template is compiled in and its
execution over string/int fields cannot fail), so the modelled return
paths are: status error, partial response, no-op, generation failure,
apply failure, and full success.  `usedKey.headI` is Go's `usedKey[0]`
(main.go:125). -/
def loop (o : Oracles) (s : KeyServer) : LoopStep :=
  match getKeychainStatus o.query s.config with
  | .error e =>
    { gaugeWrites := [RunError], err := some e, generated := false,
      rendered := false, applied := false, rollbackArg := none,
      partialResponse := false, server := s }
  | .ok (needsKey, usedKey) =>
    if s.config.devices.length ≠ usedKey.length then
      { gaugeWrites := [RunWarning], err := some "device response mismatch",
        generated := false, rendered := false, applied := false,
        rollbackArg := none, partialResponse := true, server := s }
    else if ¬ needsKey then
      { gaugeWrites := [RunSuccess], err := none, generated := false,
        rendered := false, applied := false, rollbackArg := none,
        partialResponse := false, server := s }
    else
      match Generate o.rng o.now { s with UsedKey := usedKey.headI } with
      | (s2, some e) =>
        { gaugeWrites := [RunWarning], err := some e, generated := true,
          rendered := false, applied := false, rollbackArg := none,
          partialResponse := false, server := s2 }
      | (s2, none) =>
        match updateKeychain o.sessP o.check o.sessA o.conf o.sessR o.roll
            (renderCommands s2) s2.config.devices with
        | (some e, rb) =>
          { gaugeWrites := [RunError], err := some e, generated := true,
            rendered := true, applied := true, rollbackArg := rb,
            partialResponse := false, server := s2 }
        | (none, rb) =>
          { gaugeWrites := [RunSuccess], err := none, generated := true,
            rendered := true, applied := true, rollbackArg := rb,
            partialResponse := false, server := s2 }

/-- C9: every return path of one cycle writes the outcome gauge exactly
once, and always one of exactly three values: 0 (error), 1/2 (warning),
1 (success or no-op). -/
theorem loop_gauge_once (o : Oracles) (s : KeyServer) :
    ∃ v : ℚ, (loop o s).gaugeWrites = [v]
      ∧ (v = RunError ∨ v = RunWarning ∨ v = RunSuccess) := by
  unfold loop
  split
  · exact ⟨RunError, rfl, Or.inl rfl⟩
  · split
    · exact ⟨RunWarning, rfl, Or.inr (Or.inl rfl)⟩
    · split
      · exact ⟨RunSuccess, rfl, Or.inr (Or.inr rfl)⟩
      · split
        · exact ⟨RunWarning, rfl, Or.inr (Or.inl rfl)⟩
        · split
          · exact ⟨RunError, rfl, Or.inl rfl⟩
          · exact ⟨RunSuccess, rfl, Or.inr (Or.inr rfl)⟩

/-- C6: if all devices respond but the collected active slots are not
pairwise equal, the status read returns the unsynchronized-fleet error
and the cycle aborts as an Error outcome with no generation, rendering
or apply, and the server unchanged. -/
theorem unsynchronized_fleet_aborts (o : Oracles) (s : KeyServer)
    (slot : String → Int) (f : String → Bool)
    (hq : ∀ r ∈ s.config.devices, o.query r = DeviceReply.state (slot r) (f r))
    (r1 r2 : String) (h1 : r1 ∈ s.config.devices) (h2 : r2 ∈ s.config.devices)
    (hdiff : slot r1 ≠ slot r2) :
    getKeychainStatus o.query s.config
        = .error "keychains unsynchronized across devices"
      ∧ loop o s = { gaugeWrites := [RunError],
                     err := some "keychains unsynchronized across devices",
                     generated := false, rendered := false, applied := false,
                     rollbackArg := none, partialResponse := false,
                     server := s } := by
  have hsl := statusLoop_states o.query slot f s.config.devices ([], []) hq
  simp only [List.nil_append] at hsl
  have hsame : ¬ checkIfSame (s.config.devices.map slot) = true := by
    rw [checkIfSame_iff]
    intro hall
    exact hdiff (hall (slot r1) (List.mem_map_of_mem slot h1)
      (slot r2) (List.mem_map_of_mem slot h2))
  have hstat : getKeychainStatus o.query s.config
      = .error "keychains unsynchronized across devices" := by
    rw [getKeychainStatus_of_statusLoop o.query s.config _ _ hsl]
    rw [if_pos hsame]
  refine ⟨hstat, ?_⟩
  unfold loop
  rw [hstat]

theorem unsynchronized_fleet_aborts_witness :
    getKeychainStatus
        (fun r => DeviceReply.state (if r = "r1" then 1 else 2) true) sampleConfig
        = .error "keychains unsynchronized across devices"
      ∧ loop { query := fun r => DeviceReply.state (if r = "r1" then 1 else 2) true,
               rng := constRng, now := 0,
               sessP := fun _ => none, check := fun _ => none,
               sessA := fun _ => none, conf := fun _ => none,
               sessR := fun _ => none, roll := fun _ => none } sampleServer
        = { gaugeWrites := [RunError],
            err := some "keychains unsynchronized across devices",
            generated := false, rendered := false, applied := false,
            rollbackArg := none, partialResponse := false,
            server := sampleServer } :=
  unsynchronized_fleet_aborts
    { query := fun r => DeviceReply.state (if r = "r1" then 1 else 2) true,
      rng := constRng, now := 0,
      sessP := fun _ => none, check := fun _ => none,
      sessA := fun _ => none, conf := fun _ => none,
      sessR := fun _ => none, roll := fun _ => none } sampleServer
    (fun r => if r = "r1" then 1 else 2) (fun _ => true)
    (by intro r hr; rfl) "r1" "r2" (by decide) (by decide) (by decide)

theorem getKeychainStatus_of_statusLoop_error (query : String → DeviceReply)
    (cfg : Config) (e : String)
    (h : statusLoop query cfg.devices ([], []) = .error e) :
    getKeychainStatus query cfg = .error e := by
  unfold getKeychainStatus
  rw [h]

theorem getKeychainStatus_ok_shape (query : String → DeviceReply) (cfg : Config)
    (b : Bool) (ids : List Int)
    (h : getKeychainStatus query cfg = .ok (b, ids)) :
    ids.length = cfg.devices.length ∧ (b = true → ids ≠ []) := by
  cases hsl : statusLoop query cfg.devices ([], []) with
  | error e =>
    rw [getKeychainStatus_of_statusLoop_error query cfg e hsl] at h
    exact absurd h (by simp)
  | ok p =>
    obtain ⟨activeIDs, readyForKeys⟩ := p
    rw [getKeychainStatus_of_statusLoop query cfg activeIDs readyForKeys hsl] at h
    have hlen := statusLoop_ok_length query cfg.devices ([], []) activeIDs readyForKeys hsl
    simp only [List.length_nil, Nat.zero_add] at hlen
    split_ifs at h with hck hrdy hne <;>
      first
        | exact absurd h (by intro hcon; exact (Except.noConfusion hcon))
        | (have h' := h.symm
           rw [Except.ok.injEq, Prod.mk.injEq] at h'
           obtain ⟨hb, hids⟩ := h'
           subst hids
           subst hb
           first
             | exact ⟨hlen, fun _ => List.ne_nil_of_length_pos (by omega)⟩
             | exact ⟨hlen, fun hb1 => absurd hb1 (by simp)⟩)

/-- C10: whenever the status read returns without error, the active-slot
list has exactly one entry per configured device, and a true verdict
implies the list is non-empty (so the loop's `usedKey[0]` access is
safe); consequently the loop's partial-response branch comparing the
two lengths is never taken. -/
theorem status_ok_shape (o : Oracles) (cfg : Config) (b : Bool) (ids : List Int)
    (s : KeyServer) (h : getKeychainStatus o.query cfg = .ok (b, ids)) :
    ids.length = cfg.devices.length ∧ (b = true → ids ≠ [])
      ∧ (loop o s).partialResponse = false := by
  obtain ⟨hl, hb⟩ := getKeychainStatus_ok_shape o.query cfg b ids h
  refine ⟨hl, hb, ?_⟩
  unfold loop
  split
  · rfl
  next needsKey usedKey heq =>
    have hshape := (getKeychainStatus_ok_shape o.query s.config needsKey usedKey heq).1
    rw [if_neg (show ¬ s.config.devices.length ≠ usedKey.length by omega)]
    split
    · rfl
    · split
      · rfl
      · split
        · rfl
        · rfl

theorem status_ok_shape_witness :
    ([5, 5] : List Int).length = sampleConfig.devices.length
      ∧ (true = true → ([5, 5] : List Int) ≠ [])
      ∧ (loop { query := fun _ => DeviceReply.state 5 true,
                rng := constRng, now := 0,
                sessP := fun _ => none, check := fun _ => none,
                sessA := fun _ => none, conf := fun _ => none,
                sessR := fun _ => none, roll := fun _ => none }
            sampleServer).partialResponse = false :=
  status_ok_shape
    { query := fun _ => DeviceReply.state 5 true,
      rng := constRng, now := 0,
      sessP := fun _ => none, check := fun _ => none,
      sessA := fun _ => none, conf := fun _ => none,
      sessR := fun _ => none, roll := fun _ => none }
    sampleConfig true [5, 5] sampleServer rfl

end Keyserver

